import Mathlib

/-!
Verification of the data-preparation and filtering pipeline of the
`uber_analysis` dashboard (`src/app.py`).

The pipeline core is embedded shallowly:

* a `TripRecord` is one row of the canonical in-memory trip table after
  `load_and_preprocess_data` (columns `Lat`, `Lon`, `Base` plus the derived
  calendar columns `day`, `month`, `dayofweek`, `hour`);
* the trip table is the ordered list of its rows;
* `get_filtered_data` (app.py lines 52-59) is the pandas boolean-mask
  conjunction `month.isin(...) & Base.isin(...) & hour >= lo & hour <= hi`,
  i.e. a `List.filter` by the conjunction of the three predicates;
* the sidebar metrics (app.py lines 233-237) are
  `len(filtered_data)`, `filtered_data.day.nunique()`,
  `filtered_data.hour.mode()[0]` and `filtered_data.Base.mode()[0]`.
  `Series.nunique()` counts the distinct values; `Series.mode()` returns the
  maximally frequent values sorted in ascending order, and `[0]` indexes the
  first (on an empty series this indexing raises an uncaught `KeyError`,
  modelled here by `Option.none`);
* `load_and_preprocess_data` (app.py lines 24-50) is modelled up to its file
  I/O: it receives the list of already-read input files, concatenates them
  with pandas `concat` semantics (`pd.concat` raises `ValueError` on an empty
  list of frames), subsamples (`.sample(frac=0.3)`, a random subsample,
  modelled by an arbitrary subsampling function) and derives the calendar
  columns from the parsed timestamp (`pd.to_datetime` raising on a malformed
  `Date/Time` is modelled by an `Option`-valued row derivation).

Geographic coordinates are floating-point in the source; no operation in
scope inspects their values (they are only carried through), so they are
represented by an opaque integer payload.
-/

namespace UberAnalysis

/-- One row of the canonical trip table produced by `load_and_preprocess_data`:
the retained raw columns `Lat`, `Lon`, `Base` and the derived calendar columns
`day` (day of month, 1-31), `month` (month name), `dayofweek` (day name),
`hour` (0-23). -/
structure TripRecord where
  lat : Int
  lon : Int
  base : String
  day : Nat
  month : String
  dayofweek : String
  hour : Nat
deriving DecidableEq

/-- One raw CSV row as read by `pd.read_csv(file, usecols=['Date/Time', 'Lat',
'Lon', 'Base'])` (app.py line 31), before timestamp parsing. -/
structure RawRow where
  dateTime : String
  lat : Int
  lon : Int
  base : String
deriving DecidableEq

/-- pandas `pd.concat` (app.py line 34): concatenates the given frames in
order; on an empty list of frames it raises
`ValueError: No objects to concatenate`, modelled by `Except.error`. -/
def pd_concat {α : Type} (dfs : List (List α)) : Except String (List α) :=
  if dfs.isEmpty then Except.error "No objects to concatenate"
  else Except.ok dfs.flatten

/-- Model of `load_and_preprocess_data` (app.py lines 24-50) after the file
I/O: `files` is the list of frames read from the discovered data files (one
per file, in glob order), `sample` models the random subsample
`.sample(frac=0.3)`, and `deriveRecord` models timestamp parsing
(`pd.to_datetime(..., format='%m/%d/%Y %H:%M:%S')`) together with the
derivation of the calendar columns `day`/`month`/`dayofweek`/`hour`; it
returns `none` on a malformed `Date/Time`, in which case the whole load fails
(the source lets `pd.to_datetime` raise uncaught). -/
def load_and_preprocess_data (files : List (List RawRow))
    (sample : List RawRow → List RawRow)
    (deriveRecord : RawRow → Option TripRecord) :
    Except String (List TripRecord) :=
  match pd_concat files with
  | Except.error e => Except.error e
  | Except.ok rows =>
      match (sample rows).mapM deriveRecord with
      | none => Except.error "TimestampParseError"
      | some recs => Except.ok recs

/-- `get_filtered_data` (app.py lines 52-59): the boolean-mask filter
`data[(data.month.isin(selected_month)) & (data.Base.isin(selected_base)) &
(data.hour >= selected_hour[0]) & (data.hour <= selected_hour[1])]`. -/
def get_filtered_data (data : List TripRecord)
    (selected_month selected_base : List String)
    (selected_hour : Nat × Nat) : List TripRecord :=
  data.filter fun r =>
    decide (r.month ∈ selected_month) && decide (r.base ∈ selected_base) &&
    decide (selected_hour.1 ≤ r.hour) && decide (r.hour ≤ selected_hour.2)

/-- Number of occurrences of the value `a` in the series `l` (one bucket of
pandas `value_counts`). -/
def countVal {α : Type} [DecidableEq α] (a : α) : List α → Nat
  | [] => 0
  | b :: t => (if b = a then 1 else 0) + countVal a t

/-- The distinct values occurring in the series `l` (the index of pandas
`value_counts`; the order of this list is irrelevant downstream, only its
members and its length are used). -/
def uniqueVals {α : Type} [DecidableEq α] : List α → List α
  | [] => []
  | a :: t => if a ∈ t then uniqueVals t else a :: uniqueVals t

/-- The largest occurrence count of any value of the series `l`
(`value_counts().max()`); `0` for the empty series. -/
def maxCount {α : Type} [DecidableEq α] (l : List α) : Nat :=
  (l.map fun a => countVal a l).foldr Nat.max 0

/-- The maximally frequent values of the series `l`, i.e. the multiset
underlying pandas `Series.mode()` before its ascending sort. -/
def tiedModes {α : Type} [DecidableEq α] (l : List α) : List α :=
  (uniqueVals l).filter fun a => decide (countVal a l = maxCount l)

/-- Insertion into an ascending list, keeping it ascending. -/
def insertAsc {α : Type} [LinearOrder α] (a : α) : List α → List α
  | [] => [a]
  | b :: t => if a ≤ b then a :: b :: t else b :: insertAsc a t

/-- Ascending sort (insertion sort), modelling the ascending order in which
pandas `Series.mode()` returns the tied values. -/
def sortAsc {α : Type} [LinearOrder α] : List α → List α :=
  List.foldr insertAsc []

/-- pandas `Series.mode()[0]`: the first entry of the ascending list of
maximally frequent values. On an empty series `mode()` is empty and the
indexing `[0]` raises an uncaught `KeyError`; that failure is modelled by
`none`. -/
def seriesModeZero {α : Type} [DecidableEq α] [LinearOrder α]
    (l : List α) : Option α :=
  (sortAsc (tiedModes l)).head?

/-- Sidebar metric `Total Rides` (app.py line 234): `len(filtered_data)`. -/
def totalRides (view : List TripRecord) : Nat := view.length

/-- Sidebar metric `Unique Days` (app.py line 235):
`filtered_data['day'].nunique()`, the number of distinct day-of-month
values. -/
def uniqueDays (view : List TripRecord) : Nat :=
  (uniqueVals (view.map TripRecord.day)).length

/-- Sidebar metric `Peak Hour` (app.py line 236):
`filtered_data['hour'].mode()[0]`; `none` models the uncaught `KeyError`
raised on an empty view. -/
def peakHour (view : List TripRecord) : Option Nat :=
  seriesModeZero (view.map TripRecord.hour)

/-- Sidebar metric `Most Active Base` (app.py line 237):
`filtered_data['Base'].mode()[0]`; `none` models the uncaught `KeyError`
raised on an empty view. -/
def mostActiveBase (view : List TripRecord) : Option String :=
  seriesModeZero (view.map TripRecord.base)

/-- Concrete five-record table from the specification's concrete scenario
(spec section 8): two April/B02512/hour-9 trips, one April/B02598/hour-9
trip, two May/B02512/hour-15 trips. -/
def sampleT : List TripRecord :=
  [⟨405, -740, "B02512", 1, "April", "Tuesday", 9⟩,
   ⟨406, -741, "B02512", 2, "April", "Wednesday", 9⟩,
   ⟨407, -742, "B02598", 1, "April", "Tuesday", 9⟩,
   ⟨408, -743, "B02512", 3, "May", "Thursday", 15⟩,
   ⟨409, -744, "B02512", 4, "May", "Friday", 15⟩]

section SeriesLemmas

variable {α : Type}

lemma countVal_eq_zero_of_not_mem [DecidableEq α] {a : α} :
    ∀ {l : List α}, a ∉ l → countVal a l = 0
  | [], _ => rfl
  | b :: t, h => by
    have hba : ¬b = a := fun hba => h (hba ▸ List.mem_cons_self b t)
    have hat : a ∉ t := fun hat => h (List.mem_cons_of_mem b hat)
    simp [countVal, hba, countVal_eq_zero_of_not_mem hat]

lemma le_foldr_max {x : Nat} : ∀ {L : List Nat}, x ∈ L → x ≤ L.foldr Nat.max 0
  | [], h => absurd h (List.not_mem_nil x)
  | y :: t, h => by
    rcases List.mem_cons.mp h with hxy | hxt
    · exact hxy ▸ Nat.le_max_left x (t.foldr Nat.max 0)
    · exact Nat.le_trans (le_foldr_max hxt) (Nat.le_max_right y (t.foldr Nat.max 0))

lemma foldr_max_mem : ∀ {L : List Nat}, L ≠ [] → L.foldr Nat.max 0 ∈ L
  | [], h => absurd rfl h
  | [x], _ => by simp [List.foldr]
  | x :: y :: t, _ => by
    have ih := foldr_max_mem (List.cons_ne_nil y t)
    rcases Nat.le_total x ((y :: t).foldr Nat.max 0) with hle | hle
    · have hfold : (x :: y :: t).foldr Nat.max 0 = (y :: t).foldr Nat.max 0 := by
        simpa [List.foldr] using Nat.max_eq_right hle
      rw [hfold]
      exact List.mem_cons_of_mem x ih
    · have hfold : (x :: y :: t).foldr Nat.max 0 = x := by
        simpa [List.foldr] using Nat.max_eq_left hle
      rw [hfold]
      exact List.mem_cons_self x (y :: t)

lemma countVal_le_maxCount [DecidableEq α] (l : List α) (a : α) :
    countVal a l ≤ maxCount l := by
  by_cases h : a ∈ l
  · exact le_foldr_max (List.mem_map.mpr ⟨a, h, rfl⟩)
  · simp [countVal_eq_zero_of_not_mem h]

lemma maxCount_attained [DecidableEq α] {l : List α} (h : l ≠ []) :
    ∃ a ∈ l, countVal a l = maxCount l := by
  have hmap : (l.map fun a => countVal a l) ≠ [] := by
    simpa [List.map_eq_nil_iff] using h
  have := foldr_max_mem hmap
  rcases List.mem_map.mp this with ⟨a, ha, hc⟩
  exact ⟨a, ha, hc⟩

lemma mem_uniqueVals [DecidableEq α] {b : α} :
    ∀ {l : List α}, b ∈ uniqueVals l ↔ b ∈ l
  | [] => Iff.rfl
  | a :: t => by
    by_cases h : a ∈ t
    · by_cases hba : b = a
      · subst hba
        simp [uniqueVals, h, mem_uniqueVals (l := t)]
      · simp [uniqueVals, h, hba, mem_uniqueVals (l := t)]
    · simp [uniqueVals, h, mem_uniqueVals (l := t)]

lemma nodup_uniqueVals [DecidableEq α] : ∀ (l : List α), (uniqueVals l).Nodup
  | [] => List.nodup_nil
  | a :: t => by
    by_cases h : a ∈ t
    · simpa [uniqueVals, h] using nodup_uniqueVals t
    · have hna : a ∉ uniqueVals t := fun hmem => h (mem_uniqueVals.mp hmem)
      simpa [uniqueVals, h, List.nodup_cons, hna] using nodup_uniqueVals t

lemma mem_tiedModes [DecidableEq α] {l : List α} {a : α} :
    a ∈ tiedModes l ↔ a ∈ l ∧ countVal a l = maxCount l := by
  simp [tiedModes, List.mem_filter, mem_uniqueVals]

lemma tiedModes_ne_nil [DecidableEq α] {l : List α} (h : l ≠ []) :
    tiedModes l ≠ [] := by
  rcases maxCount_attained h with ⟨a, ha, hc⟩
  exact List.ne_nil_of_mem (mem_tiedModes.mpr ⟨ha, hc⟩)

lemma insertAsc_ne_nil [LinearOrder α] (a : α) :
    ∀ (l : List α), insertAsc a l ≠ []
  | [] => List.cons_ne_nil a []
  | b :: t => by
    by_cases h : a ≤ b <;> simp [insertAsc, h]

lemma mem_insertAsc [LinearOrder α] {b a : α} :
    ∀ {l : List α}, b ∈ insertAsc a l ↔ b = a ∨ b ∈ l
  | [] => by simp [insertAsc]
  | c :: t => by
    by_cases h : a ≤ c
    · simp [insertAsc, h]
    · simp [insertAsc, h, mem_insertAsc (l := t)]
      tauto

lemma sorted_insertAsc [LinearOrder α] (a : α) :
    ∀ {l : List α}, l.Sorted (· ≤ ·) → (insertAsc a l).Sorted (· ≤ ·)
  | [], _ => by simp [insertAsc]
  | b :: t, hs => by
    rcases List.sorted_cons.mp hs with ⟨hb, ht⟩
    by_cases h : a ≤ b
    · simp only [insertAsc, if_pos h]
      refine List.sorted_cons.mpr ⟨?_, hs⟩
      intro x hx
      rcases List.mem_cons.mp hx with hxb | hxt
      · exact hxb ▸ h
      · exact le_trans h (hb x hxt)
    · simp only [insertAsc, if_neg h]
      refine List.sorted_cons.mpr ⟨?_, sorted_insertAsc a ht⟩
      intro x hx
      rcases mem_insertAsc.mp hx with hxa | hxt
      · exact hxa ▸ le_of_not_le h
      · exact hb x hxt

lemma sorted_sortAsc [LinearOrder α] : ∀ (l : List α), (sortAsc l).Sorted (· ≤ ·)
  | [] => List.sorted_nil
  | a :: t => sorted_insertAsc a (sorted_sortAsc t)

lemma mem_sortAsc [LinearOrder α] {b : α} :
    ∀ {l : List α}, b ∈ sortAsc l ↔ b ∈ l
  | [] => Iff.rfl
  | a :: t => by
    have : sortAsc (a :: t) = insertAsc a (sortAsc t) := rfl
    rw [this, mem_insertAsc, mem_sortAsc (l := t), List.mem_cons]

lemma sortAsc_ne_nil [LinearOrder α] {l : List α} (h : l ≠ []) :
    sortAsc l ≠ [] := by
  rcases l with _ | ⟨a, t⟩
  · exact absurd rfl h
  · exact insertAsc_ne_nil a (sortAsc t)

lemma seriesModeZero_eq_some [DecidableEq α] [LinearOrder α] {l : List α}
    {m : α} (h : seriesModeZero l = some m) :
    m ∈ l ∧ countVal m l = maxCount l ∧
      ∀ b ∈ l, countVal b l = maxCount l → m ≤ b := by
  rcases hs : sortAsc (tiedModes l) with _ | ⟨m', t⟩
  · rw [seriesModeZero, hs] at h
    exact absurd h (by simp)
  · rw [seriesModeZero, hs] at h
    have hm : m' = m := by simpa using h
    subst hm
    have hmem : m' ∈ tiedModes l := mem_sortAsc.mp (hs ▸ List.mem_cons_self m' t)
    rcases mem_tiedModes.mp hmem with ⟨hml, hmc⟩
    refine ⟨hml, hmc, ?_⟩
    intro b hbl hbc
    have hbt : b ∈ sortAsc (tiedModes l) := mem_sortAsc.mpr (mem_tiedModes.mpr ⟨hbl, hbc⟩)
    rw [hs] at hbt
    rcases List.mem_cons.mp hbt with hbm | hbt
    · exact hbm ▸ le_refl m'
    · have hsorted : (m' :: t).Sorted (· ≤ ·) := hs ▸ sorted_sortAsc (tiedModes l)
      exact List.rel_of_sorted_cons hsorted b hbt

lemma seriesModeZero_isSome [DecidableEq α] [LinearOrder α] {l : List α}
    (h : l ≠ []) : ∃ m, seriesModeZero l = some m := by
  rcases hs : sortAsc (tiedModes l) with _ | ⟨m, t⟩
  · exact absurd hs (sortAsc_ne_nil (tiedModes_ne_nil h))
  · exact ⟨m, by rw [seriesModeZero, hs]; rfl⟩

lemma uniqueVals_length_eq_toFinset_card [DecidableEq α] (l : List α) :
    (uniqueVals l).length = l.toFinset.card := by
  have h1 : (uniqueVals l).toFinset = l.toFinset := by
    ext x
    simp [List.mem_toFinset, mem_uniqueVals]
  calc (uniqueVals l).length
      = (uniqueVals l).toFinset.card :=
        (List.toFinset_card_of_nodup (nodup_uniqueVals l)).symm
    _ = l.toFinset.card := by rw [h1]

lemma length_filter_mono {p q : α → Bool} :
    ∀ (l : List α), (∀ a ∈ l, p a = true → q a = true) →
      (l.filter p).length ≤ (l.filter q).length
  | [], _ => Nat.le_refl 0
  | a :: t, h => by
    have ih := length_filter_mono t fun b hb => h b (List.mem_cons_of_mem a hb)
    rcases hp : p a with _ | _
    · rcases hq : q a with _ | _
      · simpa [List.filter_cons, hp, hq] using ih
      · simp only [List.filter_cons, hp, hq]
        simpa using Nat.le_succ_of_le ih
    · have hq := h a (List.mem_cons_self a t) hp
      simp only [List.filter_cons, hp, hq]
      simpa using Nat.succ_le_succ ih

lemma filter_eq_nil_of_forall {p : α → Bool} :
    ∀ (l : List α), (∀ a ∈ l, p a = false) → l.filter p = []
  | [], _ => rfl
  | a :: t, h => by
    have ha := h a (List.mem_cons_self a t)
    have ht := filter_eq_nil_of_forall t fun b hb => h b (List.mem_cons_of_mem a hb)
    simp [List.filter_cons, ha, ht]

lemma filter_idem {p : α → Bool} :
    ∀ (l : List α), (l.filter p).filter p = l.filter p
  | [] => rfl
  | a :: t => by
    rcases hp : p a with _ | _
    · simp [List.filter_cons, hp, filter_idem t]
    · simp [List.filter_cons, hp, filter_idem t]

end SeriesLemmas

/-- C1: a record is in `get_filtered_data T months bases hr` exactly when it
is a record of `T` whose month is in `months`, whose base is in `bases` and
whose hour lies in the inclusive range `hr` — the filtered view is exactly
the matching subset (soundness and completeness). -/
theorem filter_exactly_matching_subset (T : List TripRecord)
    (months bases : List String) (hr : Nat × Nat) (r : TripRecord) :
    r ∈ get_filtered_data T months bases hr ↔
      r ∈ T ∧ r.month ∈ months ∧ r.base ∈ bases ∧
        hr.1 ≤ r.hour ∧ r.hour ≤ hr.2 := by
  simp [get_filtered_data, List.mem_filter, and_assoc]

/-- C2 (evaluation at the failing input): on the empty filtered view the
Total Rides and Unique Days metrics are 0, but the mode computations behind
Peak Hour and Most Active Base have no value (`mode()` of an empty series is
empty, so the indexing `[0]` fails — in the source an uncaught `KeyError`,
not an explicit EmptyViewError or documented sentinel). -/
theorem summarize_empty_view_metrics :
    totalRides [] = 0 ∧ uniqueDays [] = 0 ∧
      peakHour [] = none ∧ mostActiveBase [] = none :=
  ⟨rfl, rfl, rfl, rfl⟩

/-- C3 (evaluation at the failing input): invoked with zero input sources,
`load_and_preprocess_data` propagates pandas' `ValueError` from
`pd.concat([])` instead of returning an empty table, whatever the sampling
and row-derivation behaviour. -/
theorem load_zero_sources_errors (sample : List RawRow → List RawRow)
    (deriveRecord : RawRow → Option TripRecord) :
    load_and_preprocess_data [] sample deriveRecord =
      Except.error "No objects to concatenate" := rfl

/-- C4: the filter returns an empty view — not an error — whenever the month
selection is empty, or the base selection is empty, or the hour range is
inverted (`minHour > maxHour`), regardless of the table's contents. -/
theorem filter_degenerate_spec_empty (T : List TripRecord)
    (months bases : List String) (hr : Nat × Nat)
    (h : months = [] ∨ bases = [] ∨ hr.2 < hr.1) :
    get_filtered_data T months bases hr = [] := by
  simp only [get_filtered_data]
  apply filter_eq_nil_of_forall
  intro r _
  rw [Bool.eq_false_iff]
  intro hcontra
  simp only [Bool.and_eq_true, decide_eq_true_eq] at hcontra
  obtain ⟨⟨⟨hmonth, hbase⟩, h1⟩, h2⟩ := hcontra
  rcases h with h | h | h
  · exact absurd hmonth (by simp [h])
  · exact absurd hbase (by simp [h])
  · omega

/-- C4 witness: the spec's concrete inverted-range scenario
`months={April}, bases={B02512}, hourRange=[10,8]` yields the empty view. -/
theorem filter_degenerate_spec_empty_witness :
    ((["April"] : List String) = [] ∨ (["B02512"] : List String) = [] ∨
        ((10, 8) : Nat × Nat).2 < ((10, 8) : Nat × Nat).1) ∧
      get_filtered_data sampleT ["April"] ["B02512"] (10, 8) = [] :=
  ⟨Or.inr (Or.inr (by decide)),
   filter_degenerate_spec_empty sampleT ["April"] ["B02512"] (10, 8)
     (Or.inr (Or.inr (by decide)))⟩

/-- C5: widening exactly one component of the filter specification — a
superset month selection, a superset base selection, or a containing hour
range — never decreases the number of records in the filtered view. -/
theorem filter_monotone_widening (T : List TripRecord)
    (m m' b b' : List String) (hr hr' : Nat × Nat)
    (h : (m ⊆ m' ∧ b = b' ∧ hr = hr') ∨
         (m = m' ∧ b ⊆ b' ∧ hr = hr') ∨
         (m = m' ∧ b = b' ∧ hr'.1 ≤ hr.1 ∧ hr.2 ≤ hr'.2)) :
    (get_filtered_data T m b hr).length ≤
      (get_filtered_data T m' b' hr').length := by
  simp only [get_filtered_data]
  apply length_filter_mono
  intro r _ hp
  simp only [Bool.and_eq_true, decide_eq_true_eq] at hp ⊢
  obtain ⟨⟨⟨hm, hb⟩, h1⟩, h2⟩ := hp
  rcases h with ⟨hs, hbe, hhe⟩ | ⟨hme, hs, hhe⟩ | ⟨hme, hbe, hlo, hhi⟩
  · subst hbe; subst hhe
    exact ⟨⟨⟨hs hm, hb⟩, h1⟩, h2⟩
  · subst hme; subst hhe
    exact ⟨⟨⟨hm, hs hb⟩, h1⟩, h2⟩
  · subst hme; subst hbe
    exact ⟨⟨⟨hm, hb⟩, le_trans hlo h1⟩, le_trans h2 hhi⟩

/-- C5 witness: widening the month selection from {April} to {April, May} on
the concrete five-record table does not decrease the view's record count. -/
theorem filter_monotone_widening_witness :
    (((["April"] : List String) ⊆ ["April", "May"] ∧
        (["B02512"] : List String) = ["B02512"] ∧
        ((0, 23) : Nat × Nat) = (0, 23)) ∨
      ((["April"] : List String) = ["April", "May"] ∧
        (["B02512"] : List String) ⊆ ["B02512"] ∧
        ((0, 23) : Nat × Nat) = (0, 23)) ∨
      ((["April"] : List String) = ["April", "May"] ∧
        (["B02512"] : List String) = ["B02512"] ∧
        ((0, 23) : Nat × Nat).1 ≤ ((0, 23) : Nat × Nat).1 ∧
        ((0, 23) : Nat × Nat).2 ≤ ((0, 23) : Nat × Nat).2)) ∧
      (get_filtered_data sampleT ["April"] ["B02512"] (0, 23)).length ≤
        (get_filtered_data sampleT ["April", "May"] ["B02512"] (0, 23)).length :=
  ⟨Or.inl ⟨by decide, rfl, rfl⟩,
   filter_monotone_widening sampleT ["April"] ["April", "May"] ["B02512"]
     ["B02512"] (0, 23) (0, 23) (Or.inl ⟨by decide, rfl, rfl⟩)⟩

/-- C6: re-filtering an already-filtered view with the same specification is
a no-op. -/
theorem filter_idempotent (T : List TripRecord)
    (months bases : List String) (hr : Nat × Nat) :
    get_filtered_data (get_filtered_data T months bases hr) months bases hr =
      get_filtered_data T months bases hr :=
  filter_idem T

/-- C7: on a non-empty filtered view, Total Rides is the number of records,
Unique Days is the number of distinct day-of-month values present, Peak Hour
is an hour value attaining the maximal occurrence count, and Most Active
Base is a base code attaining the maximal occurrence count. -/
theorem summarize_nonempty_view (view : List TripRecord) (h : view ≠ []) :
    totalRides view = view.length ∧
    uniqueDays view = (view.map TripRecord.day).toFinset.card ∧
    (∃ ph, peakHour view = some ph ∧ ph ∈ view.map TripRecord.hour ∧
      ∀ x, countVal x (view.map TripRecord.hour) ≤
        countVal ph (view.map TripRecord.hour)) ∧
    (∃ mb, mostActiveBase view = some mb ∧ mb ∈ view.map TripRecord.base ∧
      ∀ x, countVal x (view.map TripRecord.base) ≤
        countVal mb (view.map TripRecord.base)) := by
  have hh : view.map TripRecord.hour ≠ [] := by
    simpa [List.map_eq_nil_iff] using h
  have hbm : view.map TripRecord.base ≠ [] := by
    simpa [List.map_eq_nil_iff] using h
  refine ⟨rfl, uniqueVals_length_eq_toFinset_card _, ?_, ?_⟩
  · rcases seriesModeZero_isSome hh with ⟨ph, hph⟩
    rcases seriesModeZero_eq_some hph with ⟨hmem, hcnt, _⟩
    refine ⟨ph, hph, hmem, fun x => ?_⟩
    rw [hcnt]
    exact countVal_le_maxCount _ x
  · rcases seriesModeZero_isSome hbm with ⟨mb, hmb⟩
    rcases seriesModeZero_eq_some hmb with ⟨hmem, hcnt, _⟩
    refine ⟨mb, hmb, hmem, fun x => ?_⟩
    rw [hcnt]
    exact countVal_le_maxCount _ x

/-- C7 witness: the summary contract instantiated on the spec's concrete
five-record scenario table. -/
theorem summarize_nonempty_view_witness :
    sampleT ≠ [] ∧
      (totalRides sampleT = sampleT.length ∧
      uniqueDays sampleT = (sampleT.map TripRecord.day).toFinset.card ∧
      (∃ ph, peakHour sampleT = some ph ∧ ph ∈ sampleT.map TripRecord.hour ∧
        ∀ x, countVal x (sampleT.map TripRecord.hour) ≤
          countVal ph (sampleT.map TripRecord.hour)) ∧
      (∃ mb, mostActiveBase sampleT = some mb ∧
        mb ∈ sampleT.map TripRecord.base ∧
        ∀ x, countVal x (sampleT.map TripRecord.base) ≤
          countVal mb (sampleT.map TripRecord.base))) :=
  ⟨by decide, summarize_nonempty_view sampleT (by decide)⟩

/-- Four-record table with a genuine two-way tie both in hours (9 and 15
occur twice each) and in bases (B02512 and B02598 occur twice each). -/
def tieT : List TripRecord :=
  [⟨1, 2, "B02598", 5, "June", "Monday", 15⟩,
   ⟨3, 4, "B02512", 6, "June", "Monday", 9⟩,
   ⟨5, 6, "B02598", 7, "July", "Monday", 9⟩,
   ⟨7, 8, "B02512", 8, "July", "Monday", 15⟩]

/-- C8: on a non-empty view, whenever an hour value ties the Peak Hour's
occurrence count, Peak Hour is numerically least among the tied hours, and
whenever a base code ties the Most Active Base's occurrence count, Most
Active Base is lexicographically least among the tied codes (the mode is
returned in ascending order and its first entry taken). -/
theorem mode_tie_break_smallest (view : List TripRecord) (h : view ≠ []) :
    (∀ ph, peakHour view = some ph →
      ∀ x ∈ view.map TripRecord.hour,
        countVal x (view.map TripRecord.hour) =
          countVal ph (view.map TripRecord.hour) → ph ≤ x) ∧
    (∀ mb, mostActiveBase view = some mb →
      ∀ x ∈ view.map TripRecord.base,
        countVal x (view.map TripRecord.base) =
          countVal mb (view.map TripRecord.base) → mb ≤ x) := by
  constructor
  · intro ph hph x hx hcnt
    rcases seriesModeZero_eq_some hph with ⟨_, hmax, hmin⟩
    exact hmin x hx (hcnt.trans hmax)
  · intro mb hmb x hx hcnt
    rcases seriesModeZero_eq_some hmb with ⟨_, hmax, hmin⟩
    exact hmin x hx (hcnt.trans hmax)

/-- C8 witness: the tie-break contract instantiated on the four-record table
with genuine hour and base ties. -/
theorem mode_tie_break_smallest_witness :
    tieT ≠ [] ∧
      ((∀ ph, peakHour tieT = some ph →
        ∀ x ∈ tieT.map TripRecord.hour,
          countVal x (tieT.map TripRecord.hour) =
            countVal ph (tieT.map TripRecord.hour) → ph ≤ x) ∧
      (∀ mb, mostActiveBase tieT = some mb →
        ∀ x ∈ tieT.map TripRecord.base,
          countVal x (tieT.map TripRecord.base) =
            countVal mb (tieT.map TripRecord.base) → mb ≤ x)) :=
  ⟨by decide, mode_tie_break_smallest tieT (by decide)⟩

/-- C9: the filter is a pure function of the trip table and the filter
specification — equal inputs (by value) give equal filtered views. -/
theorem filter_deterministic (T T' : List TripRecord)
    (m m' b b' : List String) (hr hr' : Nat × Nat)
    (h : T = T' ∧ m = m' ∧ b = b' ∧ hr = hr') :
    get_filtered_data T m b hr = get_filtered_data T' m' b' hr' := by
  obtain ⟨h1, h2, h3, h4⟩ := h
  rw [h1, h2, h3, h4]

/-- C9 witness: determinism instantiated on the concrete scenario inputs. -/
theorem filter_deterministic_witness :
    (sampleT = sampleT ∧ (["April"] : List String) = ["April"] ∧
        (["B02512"] : List String) = ["B02512"] ∧
        ((0, 23) : Nat × Nat) = (0, 23)) ∧
      get_filtered_data sampleT ["April"] ["B02512"] (0, 23) =
        get_filtered_data sampleT ["April"] ["B02512"] (0, 23) :=
  ⟨⟨rfl, rfl, rfl, rfl⟩,
   filter_deterministic sampleT sampleT ["April"] ["April"] ["B02512"]
     ["B02512"] (0, 23) (0, 23) ⟨rfl, rfl, rfl, rfl⟩⟩

/-- C10: the filtered view is a derived sub-collection of the trip table —
its records are records of `T`, kept in `T`'s order; the table itself is an
unchanged input of the pure filter, never mutated in place. -/
theorem filter_new_collection_sublist (T : List TripRecord)
    (months bases : List String) (hr : Nat × Nat) :
    (get_filtered_data T months bases hr).Sublist T :=
  List.filter_sublist T

end UberAnalysis
